import Mathlib

/-!
# Verification of the Interactive Assessment platform (`app.py`)

Shallow embedding of the exam-lifecycle and grading core of the single-file
Flask application `app.py`, together with theorems settling the frozen claims
about it.

Conventions of the embedding:

* Timestamps (`datetime.utcnow()`) are modelled as natural numbers counting
  microseconds (the resolution of Python `datetime`); `timedelta(minutes=d)`
  is `60000000 * d` microseconds.
* SQLAlchemy tables are lists of records held in a `Store`; `Query.get` /
  `filter_by(...).first()` is `List.find?`, `filter_by(...).all()` is
  `List.filter`, and adding + committing a new row appends it.  Updating a
  fetched row mutates it in place (first match).  Surrogate primary keys that
  the code never reads (`ExamQuestion.id`, `ExamAnswer.id`, `AuditLog.id`)
  are omitted from the record types.
* Numeric scores are naturals: `grade_answer_text` only ever produces the
  integers 0 and 1, so the `Float` columns `score` and `total_score` always
  hold exact small integers.
* Python operations that raise (`None.attribute`, a missing row where the
  code does not check) are modelled with `Option`, returning `none` where the
  code would raise an exception.
-/

namespace InteractiveAssessment

/-! ## The similarity matcher (`difflib.SequenceMatcher`)

`grade_answer_text` calls `difflib.SequenceMatcher(None, s, m).ratio()`.
This section embeds the stdlib matcher for `isjunk=None`.  The `autojunk`
popularity heuristic (which only alters behaviour when the second string has
length ≥ 200) and the four junk-extension loops of `find_longest_match`
(which never fire when the junk set is empty, since the dynamic program
already returns a maximal block) are omitted.
-/

/-- `a[i]` and `b[j]` exist and are equal (the guard of difflib's inner
loop, where `j` ranges over `b2j[a[i]]`). -/
def charMatch (a b : List Char) (i j : Nat) : Bool :=
  match a.get? i, b.get? j with
  | some x, some y => x = y
  | _, _ => false

/-- Length of the common run of matches ending at positions `(i, j)`,
truncated to the window starting at `(alo, blo)`.  This is the value
difflib maintains incrementally in `j2len`: `k = j2len.get(j-1, 0) + 1`,
where `j2len` holds the runs of the previous row. -/
def kRun (a b : List Char) (alo blo : Nat) : Nat → Nat → Nat
  | 0, j => if charMatch a b 0 j then 1 else 0
  | i+1, j =>
    if charMatch a b (i+1) j then
      if alo ≤ i ∧ blo < j then kRun a b alo blo i (j-1) + 1 else 1
    else 0

/-- One inner-loop step of `find_longest_match`: at candidate end pair
`(i, j)`, replace the current best block when a strictly longer run ends
here (difflib records the block as `(i-k+1, j-k+1, k)`). -/
def flmStep (a b : List Char) (alo blo : Nat) (i : Nat)
    (best : Nat × Nat × Nat) (j : Nat) : Nat × Nat × Nat :=
  if charMatch a b i j then
    let k := kRun a b alo blo i j
    if best.2.2 < k then (i + 1 - k, j + 1 - k, k) else best
  else best

/-- `SequenceMatcher.find_longest_match` on window `a[alo:ahi]`,
`b[blo:bhi]` with an empty junk set: scan rows `i` ascending and, inside a
row, matching columns `j` ascending, keeping the first strictly-longest
block encountered.  Returns `(besti, bestj, bestsize)`. -/
def flm (a b : List Char) (alo ahi blo bhi : Nat) : Nat × Nat × Nat :=
  (List.range' alo (ahi - alo)).foldl
    (fun best i => (List.range' blo (bhi - blo)).foldl (flmStep a b alo blo i) best)
    (alo, blo, 0)

/-- `get_matching_blocks` recursion: total size of the matching blocks in
the given window.  `fuel` bounds the recursion depth; every call site
supplies enough fuel for the recursion (which splits the `a`-window into
strictly smaller disjoint pieces) to run to completion. -/
def matchTotalFuel (a b : List Char) : Nat → Nat × Nat × Nat × Nat → Nat
  | 0, _ => 0
  | fuel+1, (alo, ahi, blo, bhi) =>
    let r := flm a b alo ahi blo bhi
    let k := r.2.2
    if k = 0 then 0
    else
      k + matchTotalFuel a b fuel (alo, r.1, blo, r.2.1)
        + matchTotalFuel a b fuel (r.1 + k, ahi, r.2.1 + k, bhi)

/-- `M`: the total number of matched elements between `a` and `b`
(`sum(size for block in get_matching_blocks())`). -/
def matchTotal (a b : List Char) : Nat :=
  matchTotalFuel a b (a.length + b.length + 1) (0, a.length, 0, b.length)

/-- Normalization applied by `grade_answer_text`:
`text.strip().lower()`, viewed as a list of characters (whitespace
stripped from both ends, then lower-cased; Python's Unicode-aware
`str.lower`/`str.strip` is modelled by the character-level
`Char.toLower`/`Char.isWhitespace`). -/
def normalize (s : String) : List Char :=
  ((s.data.dropWhile Char.isWhitespace).reverse.dropWhile Char.isWhitespace).reverse.map
    Char.toLower

/-- `grade_answer_text(student_answer, model_answer)` from `app.py`:
empty submission short-circuits to `(False, 0)`; otherwise both strings are
normalized and compared with `SequenceMatcher.ratio() = 2*M/T` (with
`ratio = 1.0` when `T = 0`), correct iff the ratio is at least `0.60`
(the float literal is modelled as the rational `3/5`; `2*M/T ≥ 3/5` iff
`10*M ≥ 3*T`).  Score is 1 if correct else 0. -/
def grade_answer_text (student_answer model_answer : String) : Bool × Nat :=
  if student_answer = "" then (false, 0)
  else
    let s := normalize student_answer
    let m := normalize model_answer
    let t := s.length + m.length
    let ok := if t = 0 then true else decide (3 * t ≤ 10 * matchTotal s m)
    (ok, if ok then 1 else 0)

/-! ## Data model

The SQLAlchemy tables of `app.py` that the exam lifecycle reads or writes.
`Student`, `Admin`, and the surrogate primary keys the code never consults
are not modelled; students are referred to by their id.  `ExamAnswer.student_id`
is `Option Nat` because, although the column is declared `nullable=False`,
the code can construct records without setting it. -/

structure Question where
  id : Nat
  question_text : String
  model_answer : String
deriving Repr, DecidableEq

structure Exam where
  id : Nat
  student_id : Nat
  start_time : Option Nat
  end_time : Option Nat
  total_score : Nat
  status : String
  duration_minutes : Nat
deriving Repr, DecidableEq

structure ExamQuestion where
  exam_id : Nat
  question_id : Nat
  question_order : Nat
deriving Repr, DecidableEq

structure ExamAnswer where
  exam_id : Nat
  question_id : Nat
  student_id : Option Nat
  student_answer : Option String
  is_correct : Bool
  score : Nat
deriving Repr, DecidableEq

structure AuditLog where
  student_id : Option Nat
  action : String
deriving Repr, DecidableEq

/-- The database: one list per table, in insertion (primary-key) order. -/
structure Store where
  questions : List Question
  exams : List Exam
  exam_questions : List ExamQuestion
  exam_answers : List ExamAnswer
  audit_logs : List AuditLog
deriving Repr, DecidableEq

/-- `Exam.query.get(exam_id)` (also `get_or_404`). -/
def findExam (s : Store) (eid : Nat) : Option Exam :=
  s.exams.find? (fun e => e.id == eid)

/-- `Question.query.get(question_id)`. -/
def findQuestion (qs : List Question) (qid : Nat) : Option Question :=
  qs.find? (fun q => q.id == qid)

/-- Mutating the `Exam` row fetched by primary key: replace the first row
with the given id. -/
def updateExam (eid : Nat) (f : Exam → Exam) : List Exam → List Exam
  | [] => []
  | e :: rest => if e.id == eid then f e :: rest else e :: updateExam eid f rest

/-- `add_log(student_id, action)`: append an `AuditLog` row (the
interpolated ids inside the action text are elided). -/
def add_log (s : Store) (student_id : Option Nat) (action : String) : Store :=
  { s with audit_logs := s.audit_logs ++ [{ student_id := student_id, action := action }] }

/-- The autoincrement primary key SQLite assigns to the next `exams` row. -/
def freshExamId (s : Store) : Nat :=
  (s.exams.map (fun e => e.id)).foldr max 0 + 1

/-! ## Exam composer and lifecycle operations -/

/-- `create_exam_for_student(student_id, num_questions, duration_minutes)`.
The `Exam` row is added and committed *before* the question pool is
inspected; an empty pool then returns `None` with that row already
persisted.  `random.sample` is modelled by the `pick` parameter, applied to
the pool and `min(num_questions, len(all_qs))` exactly as in the source. -/
def create_exam_for_student (pick : List Question → Nat → List Question)
    (s : Store) (student_id num_questions duration_minutes now : Nat) :
    Option Exam × Store :=
  let exam : Exam :=
    { id := freshExamId s, student_id := student_id, start_time := some now,
      end_time := none, total_score := 0, status := "in-progress",
      duration_minutes := duration_minutes }
  let s1 : Store := { s with exams := s.exams ++ [exam] }
  let all_qs := s1.questions
  if all_qs.isEmpty then (none, s1)
  else
    let selected := pick all_qs (min num_questions all_qs.length)
    let links := selected.enum.map (fun p =>
      ({ exam_id := exam.id, question_id := p.2.id,
         question_order := p.1 + 1 } : ExamQuestion))
    let s2 : Store := { s1 with exam_questions := s1.exam_questions ++ links }
    (some exam, add_log s2 (some student_id) "Started exam")

/-- The loop body of `grade_exam`: walk the instance's `ExamAnswer` rows,
skip rows whose `Question` no longer exists (`if not q: continue`),
otherwise overwrite `is_correct`/`score` from `grade_answer_text` and
accumulate the total.  Returns the updated table and the total. -/
def gradeAnswers (qs : List Question) (eid : Nat) :
    List ExamAnswer → List ExamAnswer × Nat
  | [] => ([], 0)
  | a :: rest =>
    let r := gradeAnswers qs eid rest
    if a.exam_id == eid then
      match findQuestion qs a.question_id with
      | none => (a :: r.1, r.2)
      | some q =>
        let g := grade_answer_text (a.student_answer.getD "") q.model_answer
        ({ a with is_correct := g.1, score := g.2 } :: r.1, r.2 + g.2)
    else (a :: r.1, r.2)

/-- The field updates `grade_exam` (and the inline grading of
`submit_exam`) applies to the exam row. -/
def completeWith (t : Nat) : Exam → Exam :=
  fun e => { e with total_score := t, status := "completed" }

/-- The field updates `auto_submit_exam` applies to the exam row after
grading. -/
def autoSubmitWith (t now : Nat) : Exam → Exam :=
  fun e => { e with status := "auto-submitted", end_time := some now, total_score := t }

/-- `grade_exam(exam_id)`: regrade every answer row of the instance whose
question still exists, store the recomputed total on the exam, mark it
`completed`, and return the total.  `none` models the `AttributeError` the
code raises when the exam id does not exist (`exam` is `None`). -/
def grade_exam (s : Store) (exam_id : Nat) : Option (Nat × Store) :=
  match findExam s exam_id with
  | none => none
  | some _ =>
    some ((gradeAnswers s.questions exam_id s.exam_answers).2,
      { s with exam_answers := (gradeAnswers s.questions exam_id s.exam_answers).1,
               exams := updateExam exam_id (completeWith (gradeAnswers s.questions exam_id s.exam_answers).2) s.exams })

/-- `timedelta(minutes=d)` in microseconds. -/
def minutesUs (d : Nat) : Nat := 60000000 * d

/-- `check_time_allowed(exam)` with the current time passed explicitly:
fails closed on a missing start time, otherwise
`now <= start_time + duration`. -/
def check_time_allowed (exam : Exam) (now : Nat) : Bool :=
  match exam.start_time with
  | none => false
  | some st => decide (now ≤ st + minutesUs exam.duration_minutes)

/-- The placeholder rows `auto_submit_exam` inserts: one empty-answer row
per question link of the exam whose question id is not among the exam's
existing answer rows (the membership set is computed once up front, as in
the source).  The placeholders set no `student_id`. -/
def autoPlaceholders (s : Store) (exam_id : Nat) : List ExamAnswer :=
  ((s.exam_questions.filter (fun ql => ql.exam_id == exam_id)).filter
      (fun ql => !((s.exam_answers.filter (fun a => a.exam_id == exam_id)).map
        (fun a => a.question_id)).contains ql.question_id)).map
    (fun ql => ({ exam_id := exam_id, question_id := ql.question_id,
                  student_id := none, student_answer := some "",
                  is_correct := false, score := 0 } : ExamAnswer))

/-- `auto_submit_exam(exam)`: insert the placeholders and commit, then run
`grade_exam`, force the status to `auto-submitted`, stamp `end_time`, and
store the total.  Every placeholder carries no `student_id` while the
column is declared `nullable=False`, so the commit raises `IntegrityError`
(modelled `none`, nothing persisted — the transaction rolls back) whenever
at least one placeholder is inserted; the operation completes only when
every question link of the exam already has an answer row. -/
def auto_submit_exam (s : Store) (exam_id now : Nat) : Option (Nat × Store) :=
  if autoPlaceholders s exam_id = [] then
    match grade_exam s exam_id with
    | none => none
    | some (total, s1) =>
      match findExam s1 exam_id with
      | none => none
      | some e =>
        some (total, add_log { s1 with exams := updateExam exam_id (autoSubmitWith total now) s1.exams }
          (some e.student_id) "Exam auto-submitted")
  else none

/-- `POST /start_exam` for the logged-in student: force-close every
`in-progress` exam of the student (status `completed`, `end_time` stamped),
then call the composer with `num_questions=50`, `duration_minutes=60`.
Returns the new exam id, or `none` ("No questions available."). -/
def start_exam (pick : List Question → Nat → List Question)
    (s : Store) (student_id now : Nat) : Option Nat × Store :=
  match create_exam_for_student pick
      { s with exams := s.exams.map (fun e =>
          if e.student_id == student_id && e.status == "in-progress"
          then { e with status := "completed", end_time := some now } else e) }
      student_id 50 60 now with
  | (none, s2) => (none, s2)
  | (some exam, s2) => (some exam.id, s2)

inductive PageResult
  | render (timeRemaining : Int)
  | redirectResults
  | forbidden
  | notFound
  | serverError
deriving Repr, DecidableEq

/-- `GET /exam/<exam_id>`: 404 if the exam does not exist, 403 if not owned
by the session student; otherwise `remaining = int((limit - now).total_seconds())`
(`int()` truncates toward zero, as does `Int.tdiv`); when `remaining < 0`,
auto-submit (only if still `in-progress`) and redirect to the results page,
else render the exam with the remaining seconds.  A missing start time
makes `exam.start_time + timedelta` raise (`serverError`), and an
auto-submit that raises (its placeholder insert, see `auto_submit_exam`)
surfaces as a server error too. -/
def exam_page (s : Store) (session_student exam_id now : Nat) :
    PageResult × Store :=
  match findExam s exam_id with
  | none => (PageResult.notFound, s)
  | some exam =>
    if exam.student_id != session_student then (PageResult.forbidden, s)
    else
      match exam.start_time with
      | none => (PageResult.serverError, s)
      | some st =>
        let limit : Int := (st : Int) + (minutesUs exam.duration_minutes : Int)
        let remaining : Int := Int.tdiv (limit - (now : Int)) 1000000
        if remaining < 0 then
          if exam.status == "in-progress" then
            match auto_submit_exam s exam_id now with
            | none => (PageResult.serverError, s)
            | some (_, s2) => (PageResult.redirectResults, s2)
          else (PageResult.redirectResults, s)
        else (PageResult.render remaining, s)

/-- One entry of the `POST /submit_exam` payload's `answers` list;
`question_id` is `None`-able (such entries are skipped), `answer` defaults
to `""`. -/
structure AnswerItem where
  question_id : Option Nat
  answer : String
deriving Repr, DecidableEq

/-- The upsert of one payload entry: the first `ExamAnswer` row with this
`(exam_id, question_id)` gets its `student_answer` overwritten; if none
exists a new row is appended carrying the exam's `student_id`.  No check
that the question is linked to the exam or exists at all. -/
def upsertAnswer (eid qid sid : Nat) (txt : String) :
    List ExamAnswer → List ExamAnswer
  | [] => [{ exam_id := eid, question_id := qid, student_id := some sid,
             student_answer := some txt, is_correct := false, score := 0 }]
  | a :: rest =>
    if a.exam_id == eid && a.question_id == qid
    then { a with student_answer := some txt } :: rest
    else a :: upsertAnswer eid qid sid txt rest

/-- The upsert loop of `submit_exam` over the payload entries (entries with
a null `question_id` are skipped; SQLAlchemy autoflush makes each upsert
visible to the next query). -/
def applyAnswerItems (eid sid : Nat) (items : List AnswerItem)
    (l : List ExamAnswer) : List ExamAnswer :=
  items.foldl (fun acc item =>
    match item.question_id with
    | none => acc
    | some qid => upsertAnswer eid qid sid item.answer acc) l

/-- The inline grading loop of `submit_exam`: unlike `grade_exam`, it does
*not* guard against a missing question — `q.model_answer` on `None` raises
an `AttributeError`, modelled as `none`. -/
def gradeAnswersStrict (qs : List Question) (eid : Nat) :
    List ExamAnswer → Option (List ExamAnswer × Nat)
  | [] => some ([], 0)
  | a :: rest =>
    match gradeAnswersStrict qs eid rest with
    | none => none
    | some r =>
      if a.exam_id == eid then
        match findQuestion qs a.question_id with
        | none => none
        | some q =>
          let g := grade_answer_text (a.student_answer.getD "") q.model_answer
          some ({ a with is_correct := g.1, score := g.2 } :: r.1, r.2 + g.2)
      else some (a :: r.1, r.2)

inductive SubmitResult
  | notFound
  | forbidden
  | autoSubmitted
  | invalidPayload
  | graded (total : Nat)
  | serverError
deriving Repr, DecidableEq

/-- `POST /submit_exam/<exam_id>`: 404 / 403 checks, then the time check
(expired ⇒ auto-submit and report `autoSubmitted`, or a server error when
the auto-submit itself raises), then payload validation
(`none` models a missing body or missing `answers` key), then the upserts
(committed), then the inline grading.  A grading crash (missing question)
leaves the committed upserts in place (`serverError`). -/
def submit_exam (s : Store) (session_student exam_id now : Nat)
    (payload : Option (List AnswerItem)) : SubmitResult × Store :=
  match findExam s exam_id with
  | none => (SubmitResult.notFound, s)
  | some exam =>
    if exam.student_id != session_student then (SubmitResult.forbidden, s)
    else if !check_time_allowed exam now then
      match auto_submit_exam s exam_id now with
      | none => (SubmitResult.serverError, s)
      | some (_, s2) => (SubmitResult.autoSubmitted, s2)
    else
      match payload with
      | none => (SubmitResult.invalidPayload, s)
      | some items =>
        let upserted := applyAnswerItems exam_id exam.student_id items s.exam_answers
        let s_up : Store := { s with exam_answers := upserted }
        match gradeAnswersStrict s_up.questions exam_id s_up.exam_answers with
        | none => (SubmitResult.serverError, s_up)
        | some (regraded, total) =>
          let exams2 := updateExam exam_id (completeWith total) s_up.exams
          (SubmitResult.graded total,
           { s_up with exam_answers := regraded, exams := exams2 })

structure ResultsData where
  total_score : Nat
  max_score : Nat
  correct_count : Nat
  incorrect_count : Nat
deriving Repr, DecidableEq

/-- `GET /api/results_data/<exam_id>` (the single-bucket topic summary
repeats `max_score`/`correct_count` and is not modelled separately):
`max_score = len(answers)`, counted over *all* answer rows of the exam,
whether or not their question exists or is linked. -/
def api_results_data (s : Store) (session_student exam_id : Nat) :
    Option ResultsData :=
  match findExam s exam_id with
  | none => none
  | some exam =>
    if exam.student_id != session_student then none
    else
      let answers := s.exam_answers.filter (fun a => a.exam_id == exam_id)
      let correct := (answers.filter (fun a => a.is_correct)).length
      some { total_score := exam.total_score, max_score := answers.length,
             correct_count := correct,
             incorrect_count := answers.length - correct }

/-- The grading pass `auto_submit_exam` triggers when it completes (no
placeholder was needed): the exam's answer table regraded, with the
total. -/
def autoGraded (s : Store) (eid : Nat) : List ExamAnswer × Nat :=
  gradeAnswers s.questions eid s.exam_answers

/-- The store `auto_submit_exam` leaves behind when it completes (the exam
row exists and no placeholder was needed): answer table regraded, exam row
completed by `grade_exam` then forced to `auto-submitted`, audit row
appended. -/
def autoSubmitStore (s : Store) (eid now sid : Nat) : Store :=
  add_log
    { s with exam_answers := (autoGraded s eid).1,
             exams := updateExam eid (autoSubmitWith (autoGraded s eid).2 now)
               (updateExam eid (completeWith (autoGraded s eid).2) s.exams) }
    (some sid) "Exam auto-submitted"

/-! ## Concrete stores used as test inputs -/

/-- A deterministic stand-in for `random.sample` (any `pick` is admissible;
the theorems about composition hold for all of them). -/
def takePick : List Question → Nat → List Question :=
  fun qs n => qs.take n

/-- An in-progress exam: student 1, started at time 0, 60 minutes. -/
def examA : Exam :=
  { id := 1, student_id := 1, start_time := some 0, end_time := none,
    total_score := 0, status := "in-progress", duration_minutes := 60 }

/-- A store with no questions at all. -/
def emptyStore : Store :=
  { questions := [], exams := [], exam_questions := [], exam_answers := [],
    audit_logs := [] }

/-- A store where exam 1 has a single answer row pointing at question 5,
which does not exist, with a (stale) recorded score of 1. -/
def storeStale : Store :=
  { questions := [], exams := [examA], exam_questions := [],
    exam_answers := [{ exam_id := 1, question_id := 5, student_id := some 1,
                       student_answer := some "x", is_correct := true, score := 1 }],
    audit_logs := [] }

/-- A store where exam 1 links one existing question that has not been
answered yet. -/
def storeOneLink : Store :=
  { questions := [{ id := 1, question_text := "q", model_answer := "paris" }],
    exams := [examA],
    exam_questions := [{ exam_id := 1, question_id := 1, question_order := 1 }],
    exam_answers := [], audit_logs := [] }

/-- Like `storeOneLink`, but the one linked question has been answered, so
auto-submit needs no placeholder and can complete. -/
def storeAnswered : Store :=
  { questions := [{ id := 1, question_text := "q", model_answer := "paris" }],
    exams := [examA],
    exam_questions := [{ exam_id := 1, question_id := 1, question_order := 1 }],
    exam_answers := [{ exam_id := 1, question_id := 1, student_id := some 1,
                       student_answer := some "paris", is_correct := false, score := 0 }],
    audit_logs := [] }

/-- The store produced by one (completing) auto-submit of exam 1 in
`storeAnswered`. -/
def storeAfterAnswered : Store :=
  ((auto_submit_exam storeAnswered 1 100).getD (0, emptyStore)).2

/-- A store with two questions of which only the first is linked to
exam 1. -/
def storeTwoQ : Store :=
  { questions := [{ id := 1, question_text := "q", model_answer := "paris" },
                  { id := 2, question_text := "q2", model_answer := "rome" }],
    exams := [examA],
    exam_questions := [{ exam_id := 1, question_id := 1, question_order := 1 }],
    exam_answers := [], audit_logs := [] }


/-! ## Helper lemmas -/

theorem foldl_fixed {α β : Type} (f : β → α → β) (b : β) (l : List α)
    (h : ∀ a ∈ l, f b a = b) : l.foldl f b = b := by
  induction l with
  | nil => rfl
  | cons a rest ih =>
    rw [List.foldl_cons, h a (List.mem_cons_self a rest)]
    exact ih (fun x hx => h x (List.mem_cons_of_mem a hx))

theorem findExam_updateExam (l : List Exam) (eid : Nat) (f : Exam → Exam)
    (hf : ∀ e, (f e).id = e.id) :
    (updateExam eid f l).find? (fun e => e.id == eid) =
      (l.find? (fun e => e.id == eid)).map f := by
  induction l with
  | nil => rfl
  | cons e rest ih =>
    by_cases h : e.id = eid
    · simp [updateExam, List.find?_cons, h, hf]
    · simp [updateExam, List.find?_cons, h, ih]

/-- The exam table produced by the composer: the fresh row is appended
whether or not the pool is empty. -/
theorem create_exam_exams (pick : List Question → Nat → List Question)
    (s : Store) (sid n d now : Nat) :
    ((create_exam_for_student pick s sid n d now).2).exams =
      s.exams ++ [{ id := freshExamId s, student_id := sid,
                    start_time := some now, end_time := none, total_score := 0,
                    status := "in-progress", duration_minutes := d }] := by
  by_cases hq : s.questions.isEmpty = true <;>
    simp [create_exam_for_student, add_log, hq]

/-- `start_exam` hands back the composer's store unchanged. -/
theorem start_exam_store (pick : List Question → Nat → List Question)
    (s : Store) (sid now : Nat) :
    (start_exam pick s sid now).2 =
      (create_exam_for_student pick
        { s with exams := s.exams.map (fun e =>
            if e.student_id == sid && e.status == "in-progress"
            then { e with status := "completed", end_time := some now } else e) }
        sid 50 60 now).2 := by
  unfold start_exam
  split
  next s2 heq => rw [heq]
  next exam s2 heq => rw [heq]

/-- Closing the in-progress exams of a student leaves no row of that
student with status `in-progress`. -/
theorem filter_in_progress_close (sid now : Nat) (l : List Exam) :
    ((l.map (fun e => if e.student_id == sid && e.status == "in-progress"
        then { e with status := "completed", end_time := some now } else e)).filter
      (fun e => e.student_id == sid && e.status == "in-progress")) = [] := by
  induction l with
  | nil => rfl
  | cons e rest ih =>
    simp only [List.map_cons, List.filter_cons]
    by_cases h : (e.student_id == sid && e.status == "in-progress") = true
    · rw [if_pos h]
      simp only [show (({ e with status := "completed", end_time := some now } :
          Exam).student_id == sid &&
          ({ e with status := "completed", end_time := some now } : Exam).status ==
            "in-progress") = false by simp]
      exact ih
    · rw [if_neg h, Bool.not_eq_true] at *
      rw [if_neg (by rw [h]; exact Bool.false_ne_true)]
      exact ih

/-! ## Claim theorems -/

/-- Claim C7: `check_time_allowed(instance, now)` returns `true` exactly
when `now ≤ start_time + duration` (boundary inclusive), and returns
`false` whenever the instance has no start time. -/
theorem check_time_allowed_spec (exam : Exam) (now : Nat) :
    (check_time_allowed exam now = true ↔
      ∃ st, exam.start_time = some st ∧ now ≤ st + minutesUs exam.duration_minutes) ∧
    (exam.start_time = none → check_time_allowed exam now = false) := by
  unfold check_time_allowed
  cases h : exam.start_time with
  | none => simp
  | some st => simp

/-- Witness for C7: the boundary instant `start + duration` itself counts
as still allowed for `examA`. -/
theorem check_time_allowed_spec_witness :
    check_time_allowed examA 3600000000 = true :=
  (check_time_allowed_spec examA 3600000000).1.mpr ⟨0, rfl, by decide⟩

/-- Counterexample to claim C2: starting an exam with an empty question
pool does report failure (`none`), but an `Exam` row *is* created and
persisted (the store went from zero exam rows to one, in-progress). -/
theorem start_exam_empty_pool_persists_exam_cex :
    (start_exam takePick emptyStore 1 0).1 = none ∧
    (start_exam takePick emptyStore 1 0).2.exams =
      [{ id := 1, student_id := 1, start_time := some 0, end_time := none,
         total_score := 0, status := "in-progress", duration_minutes := 60 }] := by
  constructor <;> rfl

/-- Claim C2 as amended: with an empty pool the Start operation reports
failure and links no questions, but one fresh `Exam` row has already been
persisted by the time the pool is inspected. -/
theorem start_exam_empty_pool_fails_but_persists_row
    (pick : List Question → Nat → List Question) (s : Store) (sid now : Nat)
    (h : s.questions = []) :
    (start_exam pick s sid now).1 = none ∧
    (start_exam pick s sid now).2.exams.length = s.exams.length + 1 ∧
    (start_exam pick s sid now).2.exam_questions = s.exam_questions := by
  unfold start_exam create_exam_for_student
  simp [h]

/-- Witness for the amended C2 at a concrete empty store. -/
theorem start_exam_empty_pool_amended_witness :
    (start_exam takePick emptyStore 7 3).1 = none ∧
    (start_exam takePick emptyStore 7 3).2.exams.length =
      emptyStore.exams.length + 1 ∧
    (start_exam takePick emptyStore 7 3).2.exam_questions =
      emptyStore.exam_questions :=
  start_exam_empty_pool_fails_but_persists_row takePick emptyStore 7 3 rfl

/-- Claim C6: after `start_exam` the student has at most one in-progress
instance, and every previously in-progress instance of the student is in
the store force-closed (`completed`, end time stamped). -/
theorem start_exam_single_in_progress
    (pick : List Question → Nat → List Question) (s : Store) (sid now : Nat) :
    ((start_exam pick s sid now).2.exams.filter
        (fun e => e.student_id == sid && e.status == "in-progress")).length ≤ 1 ∧
    ∀ e ∈ s.exams, e.student_id = sid → e.status = "in-progress" →
      ({ e with status := "completed", end_time := some now } : Exam) ∈
        (start_exam pick s sid now).2.exams := by
  rw [start_exam_store, create_exam_exams]
  constructor
  · rw [List.filter_append, filter_in_progress_close]
    simp
  · intro e he hsid hstat
    refine List.mem_append_left _ ?_
    refine List.mem_map.mpr ⟨e, he, ?_⟩
    rw [if_pos]
    simp [hsid, hstat]

/-- Witness for C6 at a concrete store holding one in-progress exam. -/
theorem start_exam_single_in_progress_witness :
    ((start_exam takePick storeOneLink 1 9).2.exams.filter
        (fun e => e.student_id == 1 && e.status == "in-progress")).length ≤ 1 ∧
    ({ examA with status := "completed", end_time := some 9 } : Exam) ∈
      (start_exam takePick storeOneLink 1 9).2.exams :=
  ⟨(start_exam_single_in_progress takePick storeOneLink 1 9).1,
   (start_exam_single_in_progress takePick storeOneLink 1 9).2 examA
     (List.mem_cons_self _ _) rfl rfl⟩

/-- Claim C9 (code bug): the placeholder `ExamAnswer` rows auto-submit
constructs carry no student id at all (`student_id` is left unset even
though the column is declared `nullable=False`): for exam 1 of
`storeOneLink`, whose one linked question is unanswered, the constructed
placeholder has `student_id = none`, and committing it therefore raises
`IntegrityError` — the auto-submit fails. -/
theorem auto_submit_placeholder_missing_student_id :
    (autoPlaceholders storeOneLink 1).map
      (fun a => (a.exam_id, a.question_id, a.student_id, a.student_answer)) =
      [(1, 1, none, some "")] ∧
    auto_submit_exam storeOneLink 1 100 = none := ⟨rfl, rfl⟩

/-- Unfolding `gradeAnswers` on a row of a different exam. -/
theorem gradeAnswers_cons_other (qs : List Question) (eid : Nat)
    (a : ExamAnswer) (rest : List ExamAnswer)
    (he : (a.exam_id == eid) = false) :
    gradeAnswers qs eid (a :: rest) =
      (a :: (gradeAnswers qs eid rest).1, (gradeAnswers qs eid rest).2) := by
  simp [gradeAnswers, he]

/-- Unfolding `gradeAnswers` on a row whose question is missing. -/
theorem gradeAnswers_cons_noq (qs : List Question) (eid : Nat)
    (a : ExamAnswer) (rest : List ExamAnswer)
    (he : (a.exam_id == eid) = true)
    (hq : findQuestion qs a.question_id = none) :
    gradeAnswers qs eid (a :: rest) =
      (a :: (gradeAnswers qs eid rest).1, (gradeAnswers qs eid rest).2) := by
  simp [gradeAnswers, he, hq]

/-- Unfolding `gradeAnswers` on a gradeable row. -/
theorem gradeAnswers_cons_q (qs : List Question) (eid : Nat)
    (a : ExamAnswer) (rest : List ExamAnswer) (q : Question)
    (he : (a.exam_id == eid) = true)
    (hq : findQuestion qs a.question_id = some q) :
    gradeAnswers qs eid (a :: rest) =
      ({ a with is_correct := (grade_answer_text (a.student_answer.getD "") q.model_answer).1,
                score := (grade_answer_text (a.student_answer.getD "") q.model_answer).2 } ::
         (gradeAnswers qs eid rest).1,
       (gradeAnswers qs eid rest).2 +
         (grade_answer_text (a.student_answer.getD "") q.model_answer).2) := by
  simp [gradeAnswers, he, hq]

/-- The total computed by `grade_exam`'s loop is exactly the sum of the
(new) score fields over the instance's answer rows whose question exists;
rows with a missing question keep their old score and contribute nothing. -/
theorem gradeAnswers_sum (qs : List Question) (eid : Nat) (l : List ExamAnswer) :
    (((gradeAnswers qs eid l).1.filter (fun a =>
        a.exam_id == eid && (findQuestion qs a.question_id).isSome)).map
      (fun a => a.score)).sum = (gradeAnswers qs eid l).2 := by
  induction l with
  | nil => rfl
  | cons a rest ih =>
    by_cases he : (a.exam_id == eid) = true
    · cases hq : findQuestion qs a.question_id with
      | none =>
        rw [gradeAnswers_cons_noq qs eid a rest he hq]
        simpa [List.filter_cons, he, hq] using ih
      | some q =>
        rw [gradeAnswers_cons_q qs eid a rest q he hq]
        have hb : ((({ a with
            is_correct := (grade_answer_text (a.student_answer.getD "") q.model_answer).1,
            score := (grade_answer_text (a.student_answer.getD "") q.model_answer).2 } :
              ExamAnswer).exam_id == eid) &&
            (findQuestion qs ({ a with
            is_correct := (grade_answer_text (a.student_answer.getD "") q.model_answer).1,
            score := (grade_answer_text (a.student_answer.getD "") q.model_answer).2 } :
              ExamAnswer).question_id).isSome) = true := by
          show ((a.exam_id == eid) && (findQuestion qs a.question_id).isSome) = true
          rw [he, hq]
          rfl
        rw [List.filter_cons, if_pos hb, List.map_cons, List.sum_cons, ih]
        show (grade_answer_text (a.student_answer.getD "") q.model_answer).2 +
            (gradeAnswers qs eid rest).2 =
          (gradeAnswers qs eid rest).2 +
            (grade_answer_text (a.student_answer.getD "") q.model_answer).2
        omega
    · have he2 : (a.exam_id == eid) = false := by
        simpa using he
      rw [gradeAnswers_cons_other qs eid a rest he2]
      simpa [List.filter_cons, he2] using ih

/-- `grade_exam`'s loop only rewrites `is_correct` and `score`: the
`(exam_id, question_id, student_id, student_answer)` columns of every row
are untouched. -/
theorem gradeAnswers_cols (qs : List Question) (eid : Nat) (l : List ExamAnswer) :
    ((gradeAnswers qs eid l).1).map
        (fun a => (a.exam_id, a.question_id, a.student_id, a.student_answer)) =
      l.map (fun a => (a.exam_id, a.question_id, a.student_id, a.student_answer)) := by
  induction l with
  | nil => rfl
  | cons a rest ih =>
    by_cases he : (a.exam_id == eid) = true
    · cases hq : findQuestion qs a.question_id with
      | none =>
        rw [gradeAnswers_cons_noq qs eid a rest he hq]
        simpa using ih
      | some q =>
        rw [gradeAnswers_cons_q qs eid a rest q he hq]
        simpa using ih
    · have he2 : (a.exam_id == eid) = false := by simpa using he
      rw [gradeAnswers_cons_other qs eid a rest he2]
      simpa using ih

/-- Regrading already-graded rows is a fixed point: the grader is a pure
function of the (unchanged) submitted text and model answer. -/
theorem gradeAnswers_idem (qs : List Question) (eid : Nat) (l : List ExamAnswer) :
    gradeAnswers qs eid (gradeAnswers qs eid l).1 = gradeAnswers qs eid l := by
  induction l with
  | nil => rfl
  | cons a rest ih =>
    by_cases he : (a.exam_id == eid) = true
    · cases hq : findQuestion qs a.question_id with
      | none =>
        rw [gradeAnswers_cons_noq qs eid a rest he hq]
        dsimp only
        rw [gradeAnswers_cons_noq qs eid a _ he hq, ih]
      | some q =>
        rw [gradeAnswers_cons_q qs eid a rest q he hq]
        dsimp only
        rw [gradeAnswers_cons_q qs eid ({ a with is_correct := (grade_answer_text (a.student_answer.getD "") q.model_answer).1, score := (grade_answer_text (a.student_answer.getD "") q.model_answer).2 }) (gradeAnswers qs eid rest).1 q he hq, ih]
    · have he2 : (a.exam_id == eid) = false := by simpa using he
      rw [gradeAnswers_cons_other qs eid a rest he2]
      dsimp only
      rw [gradeAnswers_cons_other qs eid a _ he2, ih]

/-- Counterexample to claim C1: in `storeStale` the only answer row of
exam 1 references question 5, which does not exist, and carries score 1.
`grade_exam` leaves that score in place but totals 0, so `total_score`
(0) is not the sum of all the instance's `AnswerRecord` scores (1). -/
theorem grade_exam_total_ignores_stale_scores_cex :
    ∃ s2, grade_exam storeStale 1 = some (0, s2) ∧
      (s2.exam_answers.filter (fun a => a.exam_id == 1)).map (fun a => a.score) = [1] ∧
      (findExam s2 1).map (fun e => e.total_score) = some 0 := by
  exact ⟨_, rfl, rfl, rfl⟩

/-- Claim C1 as amended: after `grade_exam`, `total_score` equals the sum
of the score fields of the instance's answer rows *whose referenced
question still exists*; rows with a missing question are skipped (kept
unregraded and excluded from the total). -/
theorem grade_exam_total_is_sum_over_existing_questions
    (s : Store) (eid t : Nat) (s2 : Store)
    (h : grade_exam s eid = some (t, s2)) :
    (((s2.exam_answers.filter (fun a =>
        a.exam_id == eid && (findQuestion s2.questions a.question_id).isSome)).map
      (fun a => a.score)).sum = t) ∧
    (findExam s2 eid).map (fun e => e.total_score) = some t ∧
    (findExam s2 eid).map (fun e => e.status) = some "completed" := by
  unfold grade_exam at h
  cases hf : findExam s eid with
  | none => rw [hf] at h; exact absurd h (by simp)
  | some e0 =>
    rw [hf] at h
    simp only [Option.some.injEq, Prod.mk.injEq] at h
    obtain ⟨ht, hs2⟩ := h
    have hq : s2.questions = s.questions := by rw [← hs2]
    have hans : s2.exam_answers = (gradeAnswers s.questions eid s.exam_answers).1 := by
      rw [← hs2]
    have hex : s2.exams = updateExam eid
        (completeWith (gradeAnswers s.questions eid s.exam_answers).2) s.exams := by
      rw [← hs2]
    unfold findExam at hf
    refine ⟨?_, ?_, ?_⟩
    · rw [hans, hq, gradeAnswers_sum, ht]
    · unfold findExam
      rw [hex, findExam_updateExam s.exams eid
        (completeWith (gradeAnswers s.questions eid s.exam_answers).2) (fun e => rfl), hf]
      simp [completeWith, ht]
    · unfold findExam
      rw [hex, findExam_updateExam s.exams eid
        (completeWith (gradeAnswers s.questions eid s.exam_answers).2) (fun e => rfl), hf]
      simp [completeWith]

/-- Witness for the amended C1: grading exam 1 of `storeOneLink` (one
existing question, unanswered) totals 0 and completes the exam. -/
theorem grade_exam_total_amended_witness :
    ∃ t s2, grade_exam storeOneLink 1 = some (t, s2) ∧
      (((s2.exam_answers.filter (fun a =>
          a.exam_id == 1 && (findQuestion s2.questions a.question_id).isSome)).map
        (fun a => a.score)).sum = t) ∧
      (findExam s2 1).map (fun e => e.status) = some "completed" := by
  refine ⟨0, _, rfl, ?_, ?_⟩
  · exact (grade_exam_total_is_sum_over_existing_questions storeOneLink 1 0 _ rfl).1
  · exact (grade_exam_total_is_sum_over_existing_questions storeOneLink 1 0 _ rfl).2.2

/-- Two answer tables agreeing on the untouched columns yield the same
per-exam question-id list. -/
theorem filter_qids_congr (l1 l2 : List ExamAnswer) (eid : Nat)
    (h : l1.map (fun a => (a.exam_id, a.question_id, a.student_id, a.student_answer)) =
         l2.map (fun a => (a.exam_id, a.question_id, a.student_id, a.student_answer))) :
    (l1.filter (fun a => a.exam_id == eid)).map (fun a => a.question_id) =
    (l2.filter (fun a => a.exam_id == eid)).map (fun a => a.question_id) := by
  have key : ∀ l : List ExamAnswer,
      (l.filter (fun a => a.exam_id == eid)).map (fun a => a.question_id) =
      ((l.map (fun a => (a.exam_id, a.question_id, a.student_id, a.student_answer))).filter
        (fun c => c.1 == eid)).map (fun c => c.2.1) := by
    intro l
    induction l with
    | nil => rfl
    | cons a rest ih =>
      simp only [List.map_cons, List.filter_cons]
      by_cases ha : (a.exam_id == eid) = true
      · simp only [ha, if_pos, List.map_cons, ih]
      · have ha2 : (a.exam_id == eid) = false := by simpa using ha
        simp only [ha2, Bool.false_eq_true, if_neg, ih]
        exact ih
  rw [key l1, key l2, h]

/-- Every placeholder the auto-submit inserts belongs to the exam. -/
theorem autoPlaceholders_exam_id (s : Store) (eid : Nat) :
    ∀ a ∈ autoPlaceholders s eid, a.exam_id = eid := by
  intro a ha
  unfold autoPlaceholders at ha
  obtain ⟨ql, hql, heq⟩ := List.mem_map.mp ha
  rw [← heq]

/-- Conversely, if auto-submit needs no placeholder then every question
link of the exam already has an answer row with its question id. -/
theorem covered_of_autoPlaceholders_nil (s : Store) (eid : Nat)
    (h : autoPlaceholders s eid = []) :
    ∀ ql ∈ s.exam_questions, ql.exam_id = eid →
      ql.question_id ∈ ((s.exam_answers.filter (fun a => a.exam_id == eid)).map
        (fun a => a.question_id)) := by
  intro ql hql he
  unfold autoPlaceholders at h
  rw [List.map_eq_nil_iff, List.filter_eq_nil_iff] at h
  have hmem : ql ∈ s.exam_questions.filter (fun q => q.exam_id == eid) :=
    List.mem_filter.mpr ⟨hql, by simp [he]⟩
  have h2 := h ql hmem
  by_contra hc
  apply h2
  simp only [Bool.not_eq_true']
  rw [Bool.eq_false_iff]
  intro habs
  exact hc (List.elem_iff.mp habs)

/-- If every link of the exam already has an answer row, auto-submit
inserts no placeholder. -/
theorem autoPlaceholders_nil_of_covered (s : Store) (eid : Nat)
    (h : ∀ ql ∈ s.exam_questions, ql.exam_id = eid →
      ql.question_id ∈ ((s.exam_answers.filter (fun a => a.exam_id == eid)).map
        (fun a => a.question_id))) :
    autoPlaceholders s eid = [] := by
  unfold autoPlaceholders
  rw [List.map_eq_nil_iff, List.filter_eq_nil_iff]
  intro ql hql
  have hmem := List.mem_filter.mp hql
  have he : ql.exam_id = eid := by simpa using hmem.2
  have hin := h ql hmem.1 he
  have hc : ((s.exam_answers.filter (fun a => a.exam_id == eid)).map
      (fun a => a.question_id)).contains ql.question_id = true := List.elem_iff.mpr hin
  rw [hc]
  simp

/-- Evaluating `auto_submit_exam` when the exam row exists and no
placeholder is needed (the only way the operation completes). -/
theorem auto_submit_spec (s : Store) (eid now : Nat) (e0 : Exam)
    (hf : findExam s eid = some e0) (hP : autoPlaceholders s eid = []) :
    auto_submit_exam s eid now =
      some ((autoGraded s eid).2, autoSubmitStore s eid now e0.student_id) := by
  unfold auto_submit_exam grade_exam
  rw [if_pos hP, hf]
  dsimp only
  unfold findExam
  dsimp only
  rw [show (updateExam eid
      (completeWith (gradeAnswers s.questions eid s.exam_answers).2)
      s.exams).find? (fun e => e.id == eid) =
      some (completeWith (gradeAnswers s.questions eid s.exam_answers).2 e0) from by
    rw [findExam_updateExam s.exams eid
      (completeWith (gradeAnswers s.questions eid s.exam_answers).2)
      (fun e => rfl),
      show s.exams.find? (fun e => e.id == eid) = some e0 from hf]
    rfl]
  rfl

/-- Claim C3: auto-submit is idempotent.  When the first auto-submit
completes — which the program allows only when every linked question
already has an answer row, since otherwise the placeholder insert raises
(C9) — a second auto-submit completes with the same total and leaves the
answer table unchanged, so no duplicate AnswerRecord arises for any
(exam, question) pair.  When the first auto-submit instead raises,
nothing is persisted and a repeat invocation raises identically, again
creating no record and leaving `total_score` untouched. -/
theorem auto_submit_idempotent (s : Store) (eid now1 now2 : Nat) :
    (∀ t1 s1, auto_submit_exam s eid now1 = some (t1, s1) →
      ∃ s2, auto_submit_exam s1 eid now2 = some (t1, s2) ∧
        s2.exam_answers = s1.exam_answers) ∧
    (auto_submit_exam s eid now1 = none → auto_submit_exam s eid now2 = none) := by
  constructor
  · intro t1 s1 h
    by_cases hP : autoPlaceholders s eid = []
    · cases hf : findExam s eid with
      | none =>
        exfalso
        unfold auto_submit_exam grade_exam at h
        rw [if_pos hP, hf] at h
        exact Option.noConfusion h
      | some e0 =>
        rw [auto_submit_spec s eid now1 e0 hf hP] at h
        simp only [Option.some.injEq, Prod.mk.injEq] at h
        obtain ⟨ht, hs1⟩ := h
        subst hs1
        have hcov : ∀ ql ∈ (autoSubmitStore s eid now1 e0.student_id).exam_questions,
            ql.exam_id = eid →
            ql.question_id ∈
              (((autoSubmitStore s eid now1 e0.student_id).exam_answers.filter
                (fun a => a.exam_id == eid)).map (fun a => a.question_id)) := by
          intro ql hql he
          show ql.question_id ∈
            (((autoGraded s eid).1.filter (fun a => a.exam_id == eid)).map
              (fun a => a.question_id))
          rw [filter_qids_congr (autoGraded s eid).1 s.exam_answers eid
            (gradeAnswers_cols s.questions eid s.exam_answers)]
          exact covered_of_autoPlaceholders_nil s eid hP ql hql he
        have hP1 : autoPlaceholders (autoSubmitStore s eid now1 e0.student_id) eid = [] :=
          autoPlaceholders_nil_of_covered (autoSubmitStore s eid now1 e0.student_id) eid hcov
        have hAG : autoGraded (autoSubmitStore s eid now1 e0.student_id) eid = autoGraded s eid := by
          show gradeAnswers s.questions eid (autoGraded s eid).1 = autoGraded s eid
          exact gradeAnswers_idem s.questions eid s.exam_answers
        have hfind1 : findExam (autoSubmitStore s eid now1 e0.student_id) eid =
            some (autoSubmitWith (autoGraded s eid).2 now1 (completeWith (autoGraded s eid).2 e0)) := by
          show (updateExam eid (autoSubmitWith (autoGraded s eid).2 now1)
              (updateExam eid (completeWith (autoGraded s eid).2) s.exams)).find?
                (fun e => e.id == eid) = _
          rw [findExam_updateExam _ eid (autoSubmitWith (autoGraded s eid).2 now1) (fun e => rfl),
              findExam_updateExam s.exams eid (completeWith (autoGraded s eid).2) (fun e => rfl),
              show s.exams.find? (fun e => e.id == eid) = some e0 from hf]
          rfl
        refine ⟨autoSubmitStore (autoSubmitStore s eid now1 e0.student_id) eid now2
            (autoSubmitWith (autoGraded s eid).2 now1 (completeWith (autoGraded s eid).2 e0)).student_id,
          ?_, ?_⟩
        · rw [auto_submit_spec (autoSubmitStore s eid now1 e0.student_id) eid now2 _ hfind1 hP1,
            hAG, ht]
        · show (autoGraded (autoSubmitStore s eid now1 e0.student_id) eid).1 = (autoGraded s eid).1
          rw [hAG]
    · exfalso
      unfold auto_submit_exam at h
      rw [if_neg hP] at h
      exact Option.noConfusion h
  · intro h
    by_cases hP : autoPlaceholders s eid = []
    · cases hf : findExam s eid with
      | none =>
        unfold auto_submit_exam grade_exam
        rw [if_pos hP, hf]
      | some e0 =>
        rw [auto_submit_spec s eid now1 e0 hf hP] at h
        exact Option.noConfusion h
    · unfold auto_submit_exam
      rw [if_neg hP]

/-- Witness for C3: double auto-submit of exam 1 in `storeAnswered`, whose
one linked question is already answered, so both calls complete with
total 1 and the second adds no row. -/
theorem auto_submit_idempotent_witness :
    ∃ s2, auto_submit_exam storeAfterAnswered 1 200 = some (1, s2) ∧
      s2.exam_answers = storeAfterAnswered.exam_answers :=
  (auto_submit_idempotent storeAnswered 1 100 200).1 1 storeAfterAnswered (by rfl)

/-- A match run ending at row `i` is no longer than the window rows. -/
theorem kRun_le_left (a b : List Char) (alo blo i j : Nat) :
    kRun a b alo blo i j ≤ i - alo + 1 := by
  induction i generalizing j with
  | zero => unfold kRun; split <;> omega
  | succ k ih =>
    unfold kRun
    split
    · split
      next h => have := ih (j - 1); omega
      next h => omega
    · omega

/-- A match run ending at column `j` is no longer than the window columns. -/
theorem kRun_le_right (a b : List Char) (alo blo i j : Nat) :
    kRun a b alo blo i j ≤ j - blo + 1 := by
  induction i generalizing j with
  | zero => unfold kRun; split <;> omega
  | succ k ih =>
    unfold kRun
    split
    · split
      next h => have := ih (j - 1); omega
      next h => omega
    · omega

theorem charMatch_self (a : List Char) (i : Nat) (hi : i < a.length) :
    charMatch a a i i = true := by
  unfold charMatch
  cases hc : a.get? i with
  | none =>
    have := List.get?_eq_none.mp hc
    omega
  | some c => simp

/-- On the diagonal of `(a, a)` the run ending at `(i, i)` is the whole
prefix. -/
theorem kRun_self_diag (a : List Char) (i : Nat) (hi : i < a.length) :
    kRun a a 0 0 i i = i + 1 := by
  induction i with
  | zero =>
    unfold kRun
    rw [if_pos (charMatch_self a 0 (by omega))]
  | succ k ih =>
    unfold kRun
    rw [if_pos (charMatch_self a (k + 1) hi)]
    rw [if_pos ⟨Nat.zero_le k, Nat.succ_pos k⟩]
    rw [show k + 1 - 1 = k from rfl, ih (by omega)]

/-- A step of `find_longest_match` whose candidate run is not strictly
longer leaves the best block unchanged. -/
theorem flmStep_no_update (a b : List Char) (alo blo i : Nat)
    (best : Nat × Nat × Nat) (j : Nat)
    (h : kRun a b alo blo i j ≤ best.2.2) :
    flmStep a b alo blo i best j = best := by
  unfold flmStep
  by_cases hm : charMatch a b i j = true
  · rw [if_pos hm, if_neg (by omega)]
  · rw [if_neg hm]

/-- `range'` with one more element, split at the right end. -/
theorem range'_succ_right (s k : Nat) :
    List.range' s (k + 1) = List.range' s k ++ [s + k] := by
  induction k generalizing s with
  | zero => simp
  | succ m ih =>
    rw [List.range'_succ, ih (s + 1), List.range'_succ]
    simp [Nat.add_comm, Nat.add_assoc, Nat.add_left_comm]

/-- Scanning row `i` of `(a, a)` from best block `(0, 0, i)` yields
`(0, 0, i + 1)`: nothing before the diagonal beats `i`, the diagonal run
has length `i + 1`, and nothing after beats that. -/
theorem flm_row_self (a : List Char) (n i : Nat) (hi : i < n) (hn : a.length = n) :
    (List.range' 0 n).foldl (flmStep a a 0 0 i) (0, 0, i) = (0, 0, i + 1) := by
  have hsplit : List.range' 0 n = List.range' 0 i ++ i :: List.range' (i + 1) (n - i - 1) := by
    have h1 := List.range'_append 0 (i + 1) (n - i - 1) 1
    rw [range'_succ_right 0 i] at h1
    rw [show n - i - 1 + (i + 1) = n from by omega] at h1
    rw [← h1]
    simp
  rw [hsplit, List.foldl_append]
  rw [foldl_fixed (flmStep a a 0 0 i) (0, 0, i) (List.range' 0 i) ?hA]
  case hA =>
    intro j hj
    have hj2 : j < i := by
      have := List.mem_range'_1.mp hj
      omega
    refine flmStep_no_update a a 0 0 i (0, 0, i) j ?_
    have := kRun_le_right a a 0 0 i j
    show kRun a a 0 0 i j ≤ i
    omega
  rw [List.foldl_cons]
  have hstep : flmStep a a 0 0 i (0, 0, i) i = (0, 0, i + 1) := by
    unfold flmStep
    rw [if_pos (charMatch_self a i (by omega))]
    rw [kRun_self_diag a i (by omega)]
    rw [if_pos (Nat.lt_succ_self i)]
    show (i + 1 - (i + 1), i + 1 - (i + 1), i + 1) = (0, 0, i + 1)
    rw [Nat.sub_self]
  rw [hstep]
  refine foldl_fixed (flmStep a a 0 0 i) (0, 0, i + 1) (List.range' (i + 1) (n - i - 1)) ?_
  intro j hj
  refine flmStep_no_update a a 0 0 i (0, 0, i + 1) j ?_
  have := kRun_le_left a a 0 0 i j
  show kRun a a 0 0 i j ≤ i + 1
  omega

/-- `find_longest_match` on `(a, a)` over the full window returns the whole
string as the best block. -/
theorem flm_self (a : List Char) (n : Nat) (hn : a.length = n) :
    flm a a 0 n 0 n = (0, 0, n) := by
  unfold flm
  simp only [Nat.sub_zero]
  suffices h : ∀ m, m ≤ n →
      (List.range' 0 m).foldl
        (fun best i => (List.range' 0 n).foldl (flmStep a a 0 0 i) best) (0, 0, 0) =
      (0, 0, m) from h n Nat.le.refl
  intro m
  induction m with
  | zero => intro hm; rfl
  | succ k ih =>
    intro hm
    rw [range'_succ_right 0 k, List.foldl_append, ih (by omega)]
    rw [List.foldl_cons]
    show (List.range' 0 n).foldl (flmStep a a 0 0 (0 + k)) (0, 0, k) = (0, 0, k + 1)
    rw [Nat.zero_add]
    exact flm_row_self a n k (by omega) hn

theorem flm_empty_a (a b : List Char) (alo blo bhi : Nat) :
    flm a b alo alo blo bhi = (alo, blo, 0) := by
  unfold flm
  rw [Nat.sub_self]
  rfl

theorem matchTotalFuel_empty_a (a b : List Char) (fuel alo blo bhi : Nat) :
    matchTotalFuel a b fuel (alo, alo, blo, bhi) = 0 := by
  cases fuel with
  | zero => rfl
  | succ f =>
    unfold matchTotalFuel
    rw [flm_empty_a]
    rfl

/-- `M(a, a)` is the whole length: identical strings match completely. -/
theorem matchTotal_self (a : List Char) : matchTotal a a = a.length := by
  rcases Nat.eq_zero_or_pos a.length with h0 | hpos
  · have ha : a = [] := List.length_eq_zero.mp h0
    subst ha
    rfl
  · obtain ⟨m, hm⟩ : ∃ m, a.length = m + 1 := ⟨a.length - 1, by omega⟩
    unfold matchTotal
    rw [hm]
    show matchTotalFuel a a (m + 1 + (m + 1) + 1) (0, m + 1, 0, m + 1) = m + 1
    unfold matchTotalFuel
    rw [flm_self a (m + 1) hm]
    show (if m + 1 = 0 then 0
      else m + 1 + matchTotalFuel a a (m + 1 + (m + 1)) (0, 0, 0, 0)
        + matchTotalFuel a a (m + 1 + (m + 1)) (0 + (m + 1), m + 1, 0 + (m + 1), m + 1)) = m + 1
    rw [if_neg (Nat.succ_ne_zero m)]
    rw [show (0 : Nat) + (m + 1) = m + 1 from Nat.zero_add _]
    rw [matchTotalFuel_empty_a, matchTotalFuel_empty_a]

/-- Counterexample to claim C4: grading the empty string against itself
yields `(false, 0)`, not `(true, 1)` — the empty-submission short-circuit
(`if not student_answer`) fires before any comparison, although the two
strings are identical (and identical after normalization). -/
theorem grade_identical_empty_cex :
    grade_answer_text "" "" = (false, 0) := by rfl

/-- Claim C4 as amended: for every *non-empty* submission `x`,
`grade(x, x) = (true, 1)`.  (Submissions that normalize to the empty
string hit the `T = 0` special case of the ratio, which difflib defines as
`1.0`; otherwise the self-match total is the full length, giving ratio
`1.0 ≥ 0.60`.) -/
theorem grade_identical_nonempty (x : String) (hx : x ≠ "") :
    grade_answer_text x x = (true, 1) := by
  unfold grade_answer_text
  rw [if_neg hx]
  dsimp only
  by_cases ht : (normalize x).length + (normalize x).length = 0
  · simp [ht]
  · rw [if_neg ht]
    have h6 : 3 * ((normalize x).length + (normalize x).length) ≤
        10 * matchTotal (normalize x) (normalize x) := by
      rw [matchTotal_self]
      omega
    rw [decide_eq_true h6]
    rfl

/-- Witness for the amended C4 at the spec's own example answer. -/
theorem grade_identical_nonempty_witness :
    grade_answer_text "Paris" "Paris" = (true, 1) :=
  grade_identical_nonempty "Paris" (by decide)

/-- Counterexample to claim C5: grading is *not* symmetric, even on
non-empty inputs — the greedy block matcher is order-dependent.
`M("ab", "bacb") = 2` (ratio `4/6 ≥ 0.6`) but `M("bacb", "ab") = 1`
(ratio `2/6 < 0.6`), so the boolean outcomes differ. -/
theorem grade_symmetric_cex :
    (grade_answer_text "ab" "bacb").1 = true ∧
    (grade_answer_text "bacb" "ab").1 = false := ⟨rfl, rfl⟩

/-- Claim C5 as amended: the boolean outcome is symmetric when the two
answers are both non-empty and equal after normalization (each direction
then grades a string against itself). -/
theorem grade_symmetric_equal_normalized (a b : String) (ha : a ≠ "") (hb : b ≠ "")
    (h : normalize a = normalize b) :
    (grade_answer_text a b).1 = (grade_answer_text b a).1 := by
  unfold grade_answer_text
  rw [if_neg ha, if_neg hb]
  dsimp only
  rw [h]

/-- Witness for the amended C5 on a pair that differs only in case and
surrounding whitespace. -/
theorem grade_symmetric_equal_normalized_witness :
    (grade_answer_text "Go" " go ").1 = (grade_answer_text " go " "Go").1 :=
  grade_symmetric_equal_normalized "Go" " go " (by decide) (by decide) (by rfl)

/-- Truncating division by one million is negative exactly on arguments a
whole million below zero (`int(total_seconds())` truncates toward zero). -/
theorem tdiv_million_neg (t : Int) (h : t ≤ -1000000) :
    Int.tdiv t 1000000 < 0 := by
  rw [show t = -(-t) from (neg_neg t).symm, Int.neg_tdiv]
  have h2 : (0 : Int) ≤ -t := by omega
  rw [Int.tdiv_eq_ediv h2 (by omega)]
  have h3 : (1 : Int) ≤ -t / 1000000 := by
    rw [Int.le_ediv_iff_mul_le (by omega)]
    omega
  omega

/-- Counterexample to claim C8: one microsecond past the deadline of exam
1 in `storeOneLink` the exam is strictly expired, yet `GET /exam/1`
renders the exam page with `time_remaining = 0` — `int()` truncates the
negative fraction of a second toward zero — and neither auto-submits nor
redirects (the store is unchanged, the exam still in-progress). -/
theorem exam_page_subsecond_expiry_cex :
    (0 : Nat) + minutesUs 60 < 3600000001 ∧
    exam_page storeOneLink 1 1 3600000001 = (PageResult.render 0, storeOneLink) := by
  exact ⟨by decide, rfl⟩

/-- Claim C8 as amended: viewing an in-progress exam at least one full
second past `start_time + duration` (so the truncated remaining-seconds
display is negative) attempts auto-submit as a side effect.  If every
linked question already has an answer row, the auto-submit completes and
the request redirects to the results page with the exam `auto-submitted`;
if some linked question is unanswered, the placeholder insert violates the
NOT NULL `student_id` constraint (C9) and the request fails with a server
error — no redirect, no state change.  Strictly-expired instants less than
one second past the deadline still render the page (see the
counterexample). -/
theorem exam_page_expired_redirects
    (s : Store) (sid eid now st : Nat) (exam : Exam)
    (hf : findExam s eid = some exam)
    (hown : exam.student_id = sid)
    (hstat : exam.status = "in-progress")
    (hst : exam.start_time = some st)
    (hexp : st + minutesUs exam.duration_minutes + 1000000 ≤ now) :
    (autoPlaceholders s eid = [] →
      ∃ s2, exam_page s sid eid now = (PageResult.redirectResults, s2) ∧
        (findExam s2 eid).map (fun e => e.status) = some "auto-submitted") ∧
    (autoPlaceholders s eid ≠ [] →
      exam_page s sid eid now = (PageResult.serverError, s)) := by
  have hred : exam_page s sid eid now =
      (match auto_submit_exam s eid now with
       | none => (PageResult.serverError, s)
       | some (_, s2) => (PageResult.redirectResults, s2)) := by
    unfold exam_page
    rw [hf]
    dsimp only
    rw [show (exam.student_id != sid) = false from by simp [hown]]
    rw [if_neg Bool.false_ne_true]
    rw [hst]
    dsimp only
    have hrem : Int.tdiv ((st : Int) + (minutesUs exam.duration_minutes : Int) - (now : Int))
        1000000 < 0 := by
      apply tdiv_million_neg
      omega
    rw [if_pos hrem]
    rw [show (exam.status == "in-progress") = true from by simp [hstat]]
    rw [if_pos rfl]
  constructor
  · intro hP
    have hfind2 : findExam (autoSubmitStore s eid now exam.student_id) eid =
        some (autoSubmitWith (autoGraded s eid).2 now (completeWith (autoGraded s eid).2 exam)) := by
      show (updateExam eid (autoSubmitWith (autoGraded s eid).2 now)
          (updateExam eid (completeWith (autoGraded s eid).2) s.exams)).find?
            (fun e => e.id == eid) = _
      rw [findExam_updateExam _ eid (autoSubmitWith (autoGraded s eid).2 now) (fun e => rfl),
          findExam_updateExam s.exams eid (completeWith (autoGraded s eid).2) (fun e => rfl),
          show s.exams.find? (fun e => e.id == eid) = some exam from hf]
      rfl
    rw [hred, auto_submit_spec s eid now exam hf hP]
    refine ⟨autoSubmitStore s eid now exam.student_id, rfl, ?_⟩
    rw [hfind2]
    rfl
  · intro hP
    rw [hred, show auto_submit_exam s eid now = none from by
      unfold auto_submit_exam
      rw [if_neg hP]]

/-- Witness for the amended C8: one full second past the deadline of exam
1 in `storeAnswered` (whose linked question is answered), the page
redirects and the exam is auto-submitted. -/
theorem exam_page_expired_redirects_witness :
    ∃ s2, exam_page storeAnswered 1 1 3601000000 = (PageResult.redirectResults, s2) ∧
      (findExam s2 1).map (fun e => e.status) = some "auto-submitted" :=
  (exam_page_expired_redirects storeAnswered 1 1 3601000000 0 examA
    rfl rfl rfl rfl (by decide)).1 rfl

/-- When every answer row of the exam references an existing question, the
crash-prone inline grading of `submit_exam` computes exactly what
`grade_exam`'s loop computes. -/
theorem strict_eq_gradeAnswers (qs : List Question) (eid : Nat) (l : List ExamAnswer)
    (h : ∀ a ∈ l, a.exam_id = eid → (findQuestion qs a.question_id).isSome = true) :
    gradeAnswersStrict qs eid l =
      some ((gradeAnswers qs eid l).1, (gradeAnswers qs eid l).2) := by
  induction l with
  | nil => rfl
  | cons a rest ih =>
    have hrest : ∀ b ∈ rest, b.exam_id = eid → (findQuestion qs b.question_id).isSome = true :=
      fun b hb => h b (List.mem_cons_of_mem a hb)
    by_cases he : (a.exam_id == eid) = true
    · cases hq : findQuestion qs a.question_id with
      | none =>
        exfalso
        have := h a (List.mem_cons_self a rest) (by simpa using he)
        rw [hq] at this
        exact Bool.false_ne_true this
      | some q =>
        rw [gradeAnswers_cons_q qs eid a rest q he hq]
        dsimp only
        have hstep : gradeAnswersStrict qs eid (a :: rest) =
            match gradeAnswersStrict qs eid rest with
            | none => none
            | some r =>
              if a.exam_id == eid then
                match findQuestion qs a.question_id with
                | none => none
                | some q =>
                  some ({ a with
                      is_correct := (grade_answer_text (a.student_answer.getD "") q.model_answer).1,
                      score := (grade_answer_text (a.student_answer.getD "") q.model_answer).2 } :: r.1,
                    r.2 + (grade_answer_text (a.student_answer.getD "") q.model_answer).2)
              else some (a :: r.1, r.2) := rfl
        rw [hstep, ih hrest]
        dsimp only
        rw [if_pos he, hq]
    · have he2 : (a.exam_id == eid) = false := by simpa using he
      rw [gradeAnswers_cons_other qs eid a rest he2]
      dsimp only
      have hstep : gradeAnswersStrict qs eid (a :: rest) =
          match gradeAnswersStrict qs eid rest with
          | none => none
          | some r =>
            if a.exam_id == eid then
              match findQuestion qs a.question_id with
              | none => none
              | some q =>
                some ({ a with
                    is_correct := (grade_answer_text (a.student_answer.getD "") q.model_answer).1,
                    score := (grade_answer_text (a.student_answer.getD "") q.model_answer).2 } :: r.1,
                  r.2 + (grade_answer_text (a.student_answer.getD "") q.model_answer).2)
            else some (a :: r.1, r.2) := rfl
      rw [hstep, ih hrest]
      dsimp only
      rw [if_neg (by rw [he2]; exact Bool.false_ne_true)]

/-- The upsert always leaves a row keyed `(eid, qid)` in the table. -/
theorem upsert_mem_self (eid qid sid : Nat) (txt : String) (l : List ExamAnswer) :
    ∃ a ∈ upsertAnswer eid qid sid txt l, a.exam_id = eid ∧ a.question_id = qid := by
  induction l with
  | nil =>
    exact ⟨_, List.mem_singleton_self _, rfl, rfl⟩
  | cons a rest ih =>
    by_cases hm : (a.exam_id == eid && a.question_id == qid) = true
    · rw [upsertAnswer, if_pos hm]
      simp only [Bool.and_eq_true, beq_iff_eq] at hm
      exact ⟨_, List.mem_cons_self _ _, hm.1, hm.2⟩
    · rw [upsertAnswer, if_neg hm]
      obtain ⟨b, hb, hids⟩ := ih
      exact ⟨b, List.mem_cons_of_mem a hb, hids⟩

/-- The upsert never removes a row keyed `(E, Q)` from the table. -/
theorem upsert_preserves_ids (eid qid sid : Nat) (txt : String) (l : List ExamAnswer)
    (E Q : Nat) (h : ∃ a ∈ l, a.exam_id = E ∧ a.question_id = Q) :
    ∃ a ∈ upsertAnswer eid qid sid txt l, a.exam_id = E ∧ a.question_id = Q := by
  induction l with
  | nil => obtain ⟨a, ha, _⟩ := h; exact absurd ha (List.not_mem_nil a)
  | cons a rest ih =>
    obtain ⟨b, hb, hids⟩ := h
    by_cases hm : (a.exam_id == eid && a.question_id == qid) = true
    · rw [upsertAnswer, if_pos hm]
      rcases List.mem_cons.mp hb with hba | hbr
      · subst hba
        exact ⟨_, List.mem_cons_self _ _, hids⟩
      · exact ⟨b, List.mem_cons_of_mem _ hbr, hids⟩
    · rw [upsertAnswer, if_neg hm]
      rcases List.mem_cons.mp hb with hba | hbr
      · subst hba
        exact ⟨b, List.mem_cons_self _ _, hids⟩
      · obtain ⟨c, hc, hcids⟩ := ih ⟨b, hbr, hids⟩
        exact ⟨c, List.mem_cons_of_mem _ hc, hcids⟩

/-- The whole upsert loop never removes a row keyed `(E, Q)`. -/
theorem applyAnswerItems_preserves_ids (eid sid : Nat) (items : List AnswerItem)
    (l : List ExamAnswer) (E Q : Nat)
    (h : ∃ a ∈ l, a.exam_id = E ∧ a.question_id = Q) :
    ∃ a ∈ applyAnswerItems eid sid items l, a.exam_id = E ∧ a.question_id = Q := by
  induction items generalizing l with
  | nil => exact h
  | cons it rest ih =>
    show ∃ a ∈ applyAnswerItems eid sid rest
      (match it.question_id with
       | none => l
       | some qid => upsertAnswer eid qid sid it.answer l), _ ∧ _
    cases hq : it.question_id with
    | none => exact ih l h
    | some qid => exact ih _ (upsert_preserves_ids eid qid sid it.answer l E Q h)

/-- Every payload entry with a non-null `question_id` leaves a row keyed
`(exam, that question)` after the upsert loop — no membership in the
exam's link set and no existence of the question is required. -/
theorem applyAnswerItems_mem (eid sid : Nat) (items : List AnswerItem)
    (l : List ExamAnswer) (qid : Nat)
    (h : (some qid) ∈ items.map (fun it => it.question_id)) :
    ∃ a ∈ applyAnswerItems eid sid items l, a.exam_id = eid ∧ a.question_id = qid := by
  induction items generalizing l with
  | nil => exact absurd h (List.not_mem_nil _)
  | cons it rest ih =>
    show ∃ a ∈ applyAnswerItems eid sid rest
      (match it.question_id with
       | none => l
       | some q => upsertAnswer eid q sid it.answer l), _ ∧ _
    rw [List.map_cons] at h
    rcases List.mem_cons.mp h with hhead | htail
    · rw [← hhead]
      exact applyAnswerItems_preserves_ids eid sid rest _ eid qid
        (upsert_mem_self eid qid sid it.answer l)
    · cases hq : it.question_id with
      | none => exact ih l htail
      | some q => exact ih _ htail

/-- Transfer of an `(E, Q)`-keyed row along equality of the untouched
columns. -/
theorem mem_ids_of_cols_eq (l1 l2 : List ExamAnswer)
    (h : l1.map (fun a => (a.exam_id, a.question_id, a.student_id, a.student_answer)) =
         l2.map (fun a => (a.exam_id, a.question_id, a.student_id, a.student_answer)))
    (E Q : Nat) (hm : ∃ a ∈ l1, a.exam_id = E ∧ a.question_id = Q) :
    ∃ a ∈ l2, a.exam_id = E ∧ a.question_id = Q := by
  obtain ⟨a, ha, hids⟩ := hm
  have h1 : (a.exam_id, a.question_id, a.student_id, a.student_answer) ∈
      l2.map (fun a => (a.exam_id, a.question_id, a.student_id, a.student_answer)) := by
    rw [← h]
    exact List.mem_map_of_mem _ ha
  obtain ⟨b, hb, hbe⟩ := List.mem_map.mp h1
  refine ⟨b, hb, ?_, ?_⟩
  · rw [show b.exam_id = a.exam_id from congrArg Prod.fst hbe, hids.1]
  · rw [show b.question_id = a.question_id from congrArg (fun p => p.2.1) hbe, hids.2]

/-- Transfer of a per-row property of the id columns along equality of the
untouched columns. -/
theorem forall_ids_of_cols_eq (l1 l2 : List ExamAnswer)
    (h : l1.map (fun a => (a.exam_id, a.question_id, a.student_id, a.student_answer)) =
         l2.map (fun a => (a.exam_id, a.question_id, a.student_id, a.student_answer)))
    (P : Nat → Nat → Prop)
    (hp : ∀ a ∈ l2, P a.exam_id a.question_id) :
    ∀ a ∈ l1, P a.exam_id a.question_id := by
  intro a ha
  have h1 : (a.exam_id, a.question_id, a.student_id, a.student_answer) ∈
      l2.map (fun a => (a.exam_id, a.question_id, a.student_id, a.student_answer)) := by
    rw [← h]
    exact List.mem_map_of_mem _ ha
  obtain ⟨b, hb, hbe⟩ := List.mem_map.mp h1
  have he1 : a.exam_id = b.exam_id := (congrArg Prod.fst hbe).symm
  have he2 : a.question_id = b.question_id := (congrArg (fun p => p.2.1) hbe).symm
  rw [he1, he2]
  exact hp b hb

/-- Counterexample to claim C10: submitting an answer for question id 99 —
which neither exists nor is linked to exam 1 of `storeOneLink` — upserts
and persists the record and counts it in `max_score`, but the grading step
of `submit_exam` then *fails* (attribute access on a `None` question), so
the record is not counted in any grading total. -/
theorem submit_unknown_question_cex :
    (submit_exam storeOneLink 1 1 5 (some [{ question_id := some 99, answer := "x" }])).1 =
      SubmitResult.serverError ∧
    ((submit_exam storeOneLink 1 1 5
        (some [{ question_id := some 99, answer := "x" }])).2.exam_answers.map
      (fun a => (a.exam_id, a.question_id))) = [(1, 99)] ∧
    findQuestion (submit_exam storeOneLink 1 1 5
        (some [{ question_id := some 99, answer := "x" }])).2.questions 99 = none ∧
    (api_results_data (submit_exam storeOneLink 1 1 5
        (some [{ question_id := some 99, answer := "x" }])).2 1 1).map
      (fun r => r.max_score) = some 1 := ⟨rfl, rfl, rfl, rfl⟩

/-- Claim C10 as amended: the Record-answer operation upserts an
AnswerRecord for every payload entry with a non-null `question_id` without
checking membership in the exam's link set; provided every answer row of
the exam then references an *existing* question, the request grades, the
total is the sum over all the exam's answer rows (linked or not), and the
results aggregation's `max_score` counts every row.  (If a referenced
question does not exist, grading instead fails after the upserts are
committed, as the counterexample shows.) -/
theorem submit_upserts_unchecked
    (s : Store) (sid eid now : Nat) (exam : Exam) (items : List AnswerItem)
    (hf : findExam s eid = some exam)
    (hown : exam.student_id = sid)
    (htime : check_time_allowed exam now = true)
    (hqs : ∀ a ∈ applyAnswerItems eid exam.student_id items s.exam_answers,
      a.exam_id = eid → (findQuestion s.questions a.question_id).isSome = true) :
    ∃ total s2, submit_exam s sid eid now (some items) = (SubmitResult.graded total, s2) ∧
      (∀ qid, (some qid) ∈ items.map (fun it => it.question_id) →
        ∃ a ∈ s2.exam_answers, a.exam_id = eid ∧ a.question_id = qid) ∧
      ((s2.exam_answers.filter (fun a => a.exam_id == eid)).map (fun a => a.score)).sum = total ∧
      (api_results_data s2 sid eid).map (fun r => r.max_score) =
        some ((s2.exam_answers.filter (fun a => a.exam_id == eid)).length) := by
  unfold submit_exam
  rw [hf]
  dsimp only
  rw [show (exam.student_id != sid) = false from by simp [hown], if_neg Bool.false_ne_true]
  rw [show (!check_time_allowed exam now) = false from by rw [htime]; rfl,
      if_neg Bool.false_ne_true]
  rw [strict_eq_gradeAnswers s.questions eid
    (applyAnswerItems eid exam.student_id items s.exam_answers) hqs]
  dsimp only
  refine ⟨(gradeAnswers s.questions eid
      (applyAnswerItems eid exam.student_id items s.exam_answers)).2,
    { s with
        exam_answers := (gradeAnswers s.questions eid
          (applyAnswerItems eid exam.student_id items s.exam_answers)).1,
        exams := updateExam eid (completeWith (gradeAnswers s.questions eid
          (applyAnswerItems eid exam.student_id items s.exam_answers)).2) s.exams },
    rfl, ?_, ?_, ?_⟩
  · intro qid hqid
    exact mem_ids_of_cols_eq (applyAnswerItems eid exam.student_id items s.exam_answers)
      (gradeAnswers s.questions eid (applyAnswerItems eid exam.student_id items s.exam_answers)).1
      (gradeAnswers_cols s.questions eid
        (applyAnswerItems eid exam.student_id items s.exam_answers)).symm eid qid
      (applyAnswerItems_mem eid exam.student_id items s.exam_answers qid hqid)
  · have hqs2 : ∀ a ∈ (gradeAnswers s.questions eid
        (applyAnswerItems eid exam.student_id items s.exam_answers)).1,
        a.exam_id = eid → (findQuestion s.questions a.question_id).isSome = true :=
      forall_ids_of_cols_eq _ (applyAnswerItems eid exam.student_id items s.exam_answers)
        (gradeAnswers_cols s.questions eid
          (applyAnswerItems eid exam.student_id items s.exam_answers))
        (fun E Q => E = eid → (findQuestion s.questions Q).isSome = true) hqs
    have hfc : ((gradeAnswers s.questions eid
          (applyAnswerItems eid exam.student_id items s.exam_answers)).1.filter
        (fun a => a.exam_id == eid)) =
        ((gradeAnswers s.questions eid
          (applyAnswerItems eid exam.student_id items s.exam_answers)).1.filter
        (fun a => a.exam_id == eid && (findQuestion s.questions a.question_id).isSome)) := by
      refine List.filter_congr ?_
      intro a ha
      by_cases hae : (a.exam_id == eid) = true
      · rw [hae, hqs2 a ha (by simpa using hae)]
        rfl
      · have hae2 : (a.exam_id == eid) = false := by simpa using hae
        rw [hae2]
        rfl
    show (((gradeAnswers s.questions eid
        (applyAnswerItems eid exam.student_id items s.exam_answers)).1.filter
      (fun a => a.exam_id == eid)).map (fun a => a.score)).sum = _
    rw [hfc]
    exact gradeAnswers_sum s.questions eid
      (applyAnswerItems eid exam.student_id items s.exam_answers)
  · unfold api_results_data
    rw [show findExam
        { s with
            exam_answers := (gradeAnswers s.questions eid
              (applyAnswerItems eid exam.student_id items s.exam_answers)).1,
            exams := updateExam eid (completeWith (gradeAnswers s.questions eid
              (applyAnswerItems eid exam.student_id items s.exam_answers)).2) s.exams } eid =
        some (completeWith (gradeAnswers s.questions eid
          (applyAnswerItems eid exam.student_id items s.exam_answers)).2 exam) from by
      show (updateExam eid (completeWith (gradeAnswers s.questions eid
          (applyAnswerItems eid exam.student_id items s.exam_answers)).2) s.exams).find?
        (fun e => e.id == eid) = _
      rw [findExam_updateExam s.exams eid (completeWith (gradeAnswers s.questions eid
          (applyAnswerItems eid exam.student_id items s.exam_answers)).2) (fun e => rfl),
        show s.exams.find? (fun e => e.id == eid) = some exam from hf]
      rfl]
    dsimp only
    rw [show ((completeWith (gradeAnswers s.questions eid
        (applyAnswerItems eid exam.student_id items s.exam_answers)).2 exam).student_id != sid) =
        false from by simp [completeWith, hown]]
    rw [if_neg Bool.false_ne_true]
    rfl

/-- Witness for the amended C10: submitting an answer for the existing but
unlinked question 2 of `storeTwoQ`. -/
theorem submit_upserts_unchecked_witness :
    ∃ total s2, submit_exam storeTwoQ 1 1 5
        (some [{ question_id := some 2, answer := "Rome" }]) =
        (SubmitResult.graded total, s2) ∧
      (∀ qid, (some qid) ∈ [({ question_id := some 2, answer := "Rome" } : AnswerItem)].map
          (fun it => it.question_id) →
        ∃ a ∈ s2.exam_answers, a.exam_id = 1 ∧ a.question_id = qid) ∧
      ((s2.exam_answers.filter (fun a => a.exam_id == 1)).map (fun a => a.score)).sum = total ∧
      (api_results_data s2 1 1).map (fun r => r.max_score) =
        some ((s2.exam_answers.filter (fun a => a.exam_id == 1)).length) :=
  submit_upserts_unchecked storeTwoQ 1 1 5 examA
    [{ question_id := some 2, answer := "Rome" }] rfl rfl (by decide) (by decide)

end InteractiveAssessment
